import Mathlib

/-
  Verification development for the startup survival simulation
  (startup_agent.py, startup_model.py, config.py).

  Embedding conventions:
  - Python floats are embedded as rationals (all operations the claims
    concern are exact: additions, multiplications, divisions, max, min,
    clipping and comparisons).
  - Every random draw (numpy normal, uniform, beta, random) is an explicit
    oracle input: the drawn value is passed as an argument.  Distribution
    support facts (a Beta sample lies in the unit interval) become
    hypotheses where a claim needs them.
  - The transcendental primitives numpy exp and numpy log are abstracted as
    an explicit function pair: no claim depends on their values, only on the
    surrounding control flow, clamps and resets.
  - The float value inf, used only for the runway field, is embedded as
    Option: none stands for an infinite runway.
  - The survival flag S (source values 1 alive, 0 dead) is embedded as a
    Bool: true stands for alive.
-/

/-- The transcendental primitives used by the agent stages (numpy exp and
numpy log), abstracted as rational functions. -/
structure Transcend where
  exp : ℚ → ℚ
  log : ℚ → ℚ

/-- Configuration record, from config.py.  Field values of the source module
are collected in defaultConfig below.  The two cadence parameters and the
sizing parameters are naturals; everything else is a rational.  The source
names B0_MIN_RATIO and B0_MAX_RATIO are rendered as B0_MIN_FRAC and
B0_MAX_FRAC. -/
structure Config where
  NUM_STARTUPS : ℕ
  TIME_HORIZON : ℕ
  K0_MIN : ℚ
  K0_MAX : ℚ
  B0_MIN_FRAC : ℚ
  B0_MAX_FRAC : ℚ
  R0_INITIAL : ℚ
  PMF_ALPHA : ℚ
  PMF_BETA : ℚ
  GAMMA : ℚ
  EPSILON_PRICE : ℚ
  BASE_PRICE : ℚ
  SIGMA_R : ℚ
  DELTA_GROWTH : ℚ
  DELTA_CUT : ℚ
  RUNWAY_LOW_THRESHOLD : ℚ
  ETA : ℚ
  SIGMA_PMF : ℚ
  LAMBDA_1 : ℚ
  LAMBDA_2 : ℚ
  LAMBDA_3 : ℚ
  FUNDING_INTERVAL : ℕ
  ALPHA_REVENUE_BURN : ℚ
  PMF_MIN : ℚ
  BETA_1 : ℚ
  BETA_2 : ℚ
  BETA_3 : ℚ
  KAPPA : ℚ
  M0_INITIAL : ℚ
  GROWTH_RATE_M : ℚ
  POLICY_INTERVAL : ℕ
  C_REG : ℚ
  S_G : ℚ
  TAU : ℚ
  P_SHOCK : ℚ
  DELTA_PMF_SHOCK_MIN : ℚ
  DELTA_PMF_SHOCK_MAX : ℚ
  DELTA_M_SHOCK_MIN : ℚ
  DELTA_M_SHOCK_MAX : ℚ
  V_EXIT : ℚ
  SUCCESS_PERCENTILE : ℚ
  Q_T : ℚ
deriving DecidableEq

/-- The concrete parameter values of config.py. -/
def defaultConfig : Config where
  NUM_STARTUPS := 1000
  TIME_HORIZON := 60
  K0_MIN := 2000000
  K0_MAX := 20000000
  B0_MIN_FRAC := 5 / 100
  B0_MAX_FRAC := 15 / 100
  R0_INITIAL := 0
  PMF_ALPHA := 2
  PMF_BETA := 5
  GAMMA := 2
  EPSILON_PRICE := 1 / 100
  BASE_PRICE := 100
  SIGMA_R := 10000
  DELTA_GROWTH := 2 / 10
  DELTA_CUT := 15 / 100
  RUNWAY_LOW_THRESHOLD := 3
  ETA := 1 / 100
  SIGMA_PMF := 2 / 100
  LAMBDA_1 := 10
  LAMBDA_2 := 10000000
  LAMBDA_3 := 2
  FUNDING_INTERVAL := 6
  ALPHA_REVENUE_BURN := 3 / 10
  PMF_MIN := 3 / 10
  BETA_1 := 5
  BETA_2 := 1 / 2
  BETA_3 := 2
  KAPPA := 1 / 4
  M0_INITIAL := 100000000
  GROWTH_RATE_M := 5 / 100
  POLICY_INTERVAL := 12
  C_REG := 50000
  S_G := 30000
  TAU := 18 / 100
  P_SHOCK := 5 / 100
  DELTA_PMF_SHOCK_MIN := -1 / 10
  DELTA_PMF_SHOCK_MAX := 15 / 100
  DELTA_M_SHOCK_MIN := -5 / 100
  DELTA_M_SHOCK_MAX := 1 / 10
  V_EXIT := 100000000
  SUCCESS_PERCENTILE := 9 / 10
  Q_T := 10

/-- State of one StartupAgent (startup_agent.py).  S is true when alive.
runway of none embeds the float value inf. -/
structure StartupAgent where
  K : ℚ
  B : ℚ
  R : ℚ
  PMF : ℚ
  V : ℚ
  S : Bool
  just_funded : Bool
  funding_received : ℚ
  runway : Option ℚ
  death_time : Option ℕ
deriving DecidableEq

instance : Inhabited StartupAgent :=
  ⟨{ K := 0, B := 0, R := 0, PMF := 0, V := 0, S := true, just_funded := false,
     funding_received := 0, runway := none, death_time := none }⟩

/-- The random draws consumed by StartupAgent init: k0 stands for the
uniform K0 sample, b0 for the uniform burn sample, pmf0 for the Beta PMF
sample. -/
structure InitDraws where
  k0 : ℚ
  b0 : ℚ
  pmf0 : ℚ

/-- StartupAgent constructor (startup_agent.py init): the three sampled
values are passed in as draws.  b0 is the value sampled uniformly between
B0_MIN_FRAC times K and B0_MAX_FRAC times K. -/
def StartupAgent.init (cfg : Config) (d : InitDraws) : StartupAgent :=
  { K := d.k0
    B := d.b0
    R := cfg.R0_INITIAL
    PMF := d.pmf0
    V := cfg.LAMBDA_3 * d.k0
    S := true
    just_funded := false
    funding_received := 0
    runway := if d.b0 > 0 then some (d.k0 / d.b0) else none
    death_time := none }

/-- The global quantities an agent stage reads from its model: market size,
competition index and the scheduler step counter. -/
structure Globals where
  market_size : ℚ
  competition_index : ℚ
  steps : ℕ

/-- The comparison self.runway LT threshold, where runway may be the float
inf (none): inf is below no finite threshold. -/
def runway_low (r : Option ℚ) (c : ℚ) : Bool :=
  match r with
  | none => false
  | some x => decide (x < c)

/-- Stage 3 (stage_consumer_adoption): a dead agent only has R forced to 0;
a live agent recomputes revenue from the logistic adoption probability,
market size, per customer quantity and competition, plus noise eps_r. -/
def stage_consumer_adoption (tr : Transcend) (cfg : Config) (g : Globals)
    (eps_r : ℚ) (a : StartupAgent) : StartupAgent :=
  if a.S = false then { a with R := 0 }
  else
    let exponent := -cfg.GAMMA * (a.PMF - cfg.EPSILON_PRICE * cfg.BASE_PRICE)
    let p_a := 1 / (1 + tr.exp exponent)
    let R_bar := g.market_size * p_a * cfg.Q_T * (1 - g.competition_index)
    { a with R := max 0 (R_bar + eps_r) }

/-- Stage 4 (stage_internal_dynamics): burn grows after funding, else burn
is cut when runway is low and burn positive. -/
def stage_internal_dynamics (cfg : Config) (a : StartupAgent) : StartupAgent :=
  if a.S = false then a
  else if a.just_funded = true then
    { a with B := a.B * (1 + cfg.DELTA_GROWTH), just_funded := false }
  else if runway_low a.runway cfg.RUNWAY_LOW_THRESHOLD = true ∧ 0 < a.B then
    { a with B := a.B * (1 - cfg.DELTA_CUT) }
  else a

/-- Stage 5 (stage_capital_update): consume funding into capital, reset the
stored funding, die when capital is nonpositive (clamping K to 0 and
recording the step counter), then recompute runway. -/
def stage_capital_update (a : StartupAgent) (steps : ℕ) : StartupAgent :=
  if a.S = false then a
  else
    let F := a.funding_received
    let a1 := { a with K := a.K + a.R - a.B + F, funding_received := 0 }
    let a2 :=
      if a1.K ≤ 0 then { a1 with S := false, K := 0, death_time := some steps }
      else a1
    if a2.S = true ∧ 0 < a2.B then { a2 with runway := some (a2.K / a2.B) }
    else if a2.S = false then { a2 with runway := some 0 }
    else { a2 with runway := none }

/-- Stage 6 (stage_pmf_valuation_update): PMF evolves by the revenue
learning term plus noise eps_p and is clipped into the unit interval, then
valuation is recomputed from R, the updated PMF, and K. -/
def stage_pmf_valuation_update (tr : Transcend) (cfg : Config) (eps_p : ℚ)
    (a : StartupAgent) : StartupAgent :=
  if a.S = false then a
  else
    let pmf1 := min 1 (max 0 (a.PMF + cfg.ETA * tr.log (1 + a.R) + eps_p))
    { a with PMF := pmf1,
             V := cfg.LAMBDA_1 * a.R + cfg.LAMBDA_2 * pmf1 + cfg.LAMBDA_3 * a.K }

/-- The guarded revenue over burn quotient of stage_funding (source local
name revenue_burn_ratio): 0 when burn is not positive. -/
def revenue_burn_quot (a : StartupAgent) : ℚ :=
  if 0 < a.B then a.R / a.B else 0

/-- The investor logic of stage_funding past the dead and cadence guards:
eligibility, logistic funding probability, uniform draw u, funding amount
KAPPA times V. -/
def funding_logic (tr : Transcend) (cfg : Config) (g : Globals) (u : ℚ)
    (a : StartupAgent) : StartupAgent :=
  let rb := revenue_burn_quot a
  if ¬ (rb ≥ cfg.ALPHA_REVENUE_BURN ∧ a.PMF ≥ cfg.PMF_MIN) then
    { a with funding_received := 0 }
  else
    let z := cfg.BETA_1 * a.PMF + cfg.BETA_2 * tr.log (a.R + 1)
             - cfg.BETA_3 * g.competition_index
    let p_fund := 1 / (1 + tr.exp (-z))
    if u < p_fund then { a with funding_received := cfg.KAPPA * a.V, just_funded := true }
    else { a with funding_received := 0 }

/-- Stage 7 (stage_funding): dead agents and off cadence months only reset
funding_received to 0; otherwise the investor logic runs. -/
def stage_funding (tr : Transcend) (cfg : Config) (g : Globals) (u : ℚ)
    (a : StartupAgent) : StartupAgent :=
  if a.S = false then { a with funding_received := 0 }
  else if g.steps % cfg.FUNDING_INTERVAL ≠ 0 then { a with funding_received := 0 }
  else funding_logic tr cfg g u a

/-- Stage 8 (stage_policy): on cadence months a live agent absorbs the
policy impact into burn, floored at 0. -/
def stage_policy (cfg : Config) (g : Globals) (a : StartupAgent) : StartupAgent :=
  if a.S = false then a
  else if g.steps % cfg.POLICY_INTERVAL ≠ 0 then a
  else
    let policy_impact := cfg.C_REG - cfg.S_G + cfg.TAU * a.R
    { a with B := max 0 (a.B + policy_impact) }

/-- One collected model level row (the model_reporters of the
DataCollector in startup_model.py). -/
structure ModelRecord where
  alive_startups : ℕ
  dead_startups : ℕ
  failure_rate : ℚ
  total_funding : ℚ
  avg_valuation : ℚ
  avg_pmf : ℚ
  avg_revenue : ℚ
  market_size : ℚ
  competition_index : ℚ
deriving DecidableEq

/-- One collected agent level row (the agent_reporters of the
DataCollector). -/
structure AgentRecord where
  capital : ℚ
  burn_rate : ℚ
  revenue : ℚ
  pmf : ℚ
  valuation : ℚ
  survival : Bool
  funding_received : ℚ
  death_time : Option ℕ
deriving DecidableEq

/-- State of a StartupModel run: the global quantities, the scheduler step
counter, the agent population, and the two DataCollector tables (one list
entry per collect call; each agent level entry holds one record per
agent). -/
structure ModelState where
  market_size : ℚ
  initial_startups : ℕ
  competition_index : ℚ
  steps : ℕ
  agents : List StartupAgent
  model_vars : List ModelRecord
  agent_vars : List (List AgentRecord)
deriving DecidableEq

/-- The agent at position i of the population (default agent when out of
range). -/
def agentAt (st : ModelState) (i : ℕ) : StartupAgent :=
  st.agents.getD i default

/-- The random draws one agent consumes during one month: revenue noise,
PMF noise, and the uniform funding draw. -/
structure AgentDraws where
  eps_r : ℚ
  eps_p : ℚ
  fund_u : ℚ

/-- The random draws one simulated month consumes: the Bernoulli shock
draw, the two shared shock magnitudes, and per agent draws indexed by the
agent position. -/
structure MonthDraws where
  shock_u : ℚ
  delta_pmf : ℚ
  delta_m : ℚ
  agent : ℕ → AgentDraws

/-- All randomness of one run: init draws per agent position and month
draws per month index. -/
structure Oracle where
  init : ℕ → InitDraws
  month : ℕ → MonthDraws

/-- The per agent effect of a shock that does occur (the loop body of
apply_shocks): alive agents have the shared delta added to PMF and clipped
into the unit interval, dead agents are untouched. -/
def shockF (d : MonthDraws) (a : StartupAgent) : StartupAgent :=
  if a.S = true then { a with PMF := min 1 (max 0 (a.PMF + d.delta_pmf)) } else a

/-- Stage 1 (StartupModel.apply_shocks): one Bernoulli draw decides the
shock; when it occurs the shared PMF delta is applied to every alive agent
and the market is rescaled by the shared market delta and floored at 0. -/
def StartupModel.apply_shocks (cfg : Config) (d : MonthDraws)
    (st : ModelState) : ModelState :=
  if d.shock_u < cfg.P_SHOCK then
    { st with agents := st.agents.map (shockF d),
              market_size := max 0 (st.market_size * (1 + d.delta_m)) }
  else st

/-- Stage 2 (StartupModel.update_market): geometric market growth, then the
competition index becomes the alive fraction of the initial population. -/
def StartupModel.update_market (cfg : Config) (st : ModelState) : ModelState :=
  { st with
      market_size := st.market_size * (1 + cfg.GROWTH_RATE_M)
      competition_index :=
        ((st.agents.filter (fun a => a.S = true)).length : ℚ)
          / (st.initial_startups : ℚ) }

/-- Map with the element position, starting at position i (used to run one
agent stage across the population, feeding each agent its own draws). -/
def mapFrom (f : ℕ → StartupAgent → StartupAgent) :
    ℕ → List StartupAgent → List StartupAgent
  | _, [] => []
  | i, a :: rest => f i a :: mapFrom f (i + 1) rest

/-- The globals snapshot an agent stage reads from the model. -/
def globalsOf (st : ModelState) : Globals :=
  { market_size := st.market_size
    competition_index := st.competition_index
    steps := st.steps }

/-- The six agent stages of one month composed on one agent, in the fixed
stage order, with the draws of that agent (agents are independent within a
month, so the stage major loop of the scheduler acts pointwise like this
composition). -/
def agentMonth (tr : Transcend) (cfg : Config) (g : Globals) (dr : AgentDraws)
    (a : StartupAgent) : StartupAgent :=
  stage_policy cfg g
    (stage_funding tr cfg g dr.fund_u
      (stage_pmf_valuation_update tr cfg dr.eps_p
        (stage_capital_update
          (stage_internal_dynamics cfg
            (stage_consumer_adoption tr cfg g dr.eps_r a)) g.steps)))

/-- StagedActivation.step: apply shocks, update the market, then run the
six agent stages stage major across the whole population, and finally
increment the step counter. -/
def StagedActivation.step (tr : Transcend) (cfg : Config) (d : MonthDraws)
    (st : ModelState) : ModelState :=
  let st1 := StartupModel.apply_shocks cfg d st
  let st2 := StartupModel.update_market cfg st1
  let g := globalsOf st2
  let ag3 := mapFrom (fun i a => stage_consumer_adoption tr cfg g (d.agent i).eps_r a) 0 st2.agents
  let ag4 := mapFrom (fun _ a => stage_internal_dynamics cfg a) 0 ag3
  let ag5 := mapFrom (fun _ a => stage_capital_update a g.steps) 0 ag4
  let ag6 := mapFrom (fun i a => stage_pmf_valuation_update tr cfg (d.agent i).eps_p a) 0 ag5
  let ag7 := mapFrom (fun i a => stage_funding tr cfg g (d.agent i).fund_u a) 0 ag6
  let ag8 := mapFrom (fun _ a => stage_policy cfg g a) 0 ag7
  { st2 with agents := ag8, steps := st2.steps + 1 }

/-- The agent level row collected for one agent. -/
def agentRecord (a : StartupAgent) : AgentRecord :=
  { capital := a.K
    burn_rate := a.B
    revenue := a.R
    pmf := a.PMF
    valuation := a.V
    survival := a.S
    funding_received := a.funding_received
    death_time := a.death_time }

/-- One DataCollector.collect call: append one model level row (the nine
model_reporters of startup_model.py) and one agent level row per agent. -/
def StartupModel.collect (st : ModelState) : ModelState :=
  let alive := (st.agents.filter (fun a => a.S = true)).length
  let dead := (st.agents.filter (fun a => a.S = false)).length
  let anyAlive := st.agents.any (fun a => a.S)
  let aliveV := ((st.agents.filter (fun a => a.S = true)).map (fun a => a.V)).sum
  let alivePMF := ((st.agents.filter (fun a => a.S = true)).map (fun a => a.PMF)).sum
  let aliveR := ((st.agents.filter (fun a => a.S = true)).map (fun a => a.R)).sum
  let row : ModelRecord :=
    { alive_startups := alive
      dead_startups := dead
      failure_rate := (dead : ℚ) / (st.agents.length : ℚ)
      total_funding := ((st.agents.filter (fun a => a.S = true)).map
        (fun a => a.funding_received)).sum
      avg_valuation := if anyAlive then aliveV / (alive : ℚ) else 0
      avg_pmf := if anyAlive then alivePMF / (alive : ℚ) else 0
      avg_revenue := if anyAlive then aliveR / (alive : ℚ) else 0
      market_size := st.market_size
      competition_index := st.competition_index }
  { st with model_vars := st.model_vars ++ [row],
            agent_vars := st.agent_vars ++ [st.agents.map agentRecord] }

/-- StartupModel constructor: seed the globals from the configuration and
create num_startups agents from the init draws. -/
def StartupModel.init (cfg : Config) (num_startups : ℕ) (o : Oracle) : ModelState :=
  { market_size := cfg.M0_INITIAL
    initial_startups := num_startups
    competition_index := 0
    steps := 0
    agents := (List.range num_startups).map (fun i => StartupAgent.init cfg (o.init i))
    model_vars := []
    agent_vars := [] }

/-- StartupModel.step: collect, then run one scheduler step; the month
draws are the oracle entry for the current step counter. -/
def StartupModel.step (tr : Transcend) (cfg : Config) (o : Oracle)
    (st : ModelState) : ModelState :=
  StagedActivation.step tr cfg (o.month st.steps) (StartupModel.collect st)

/-- k model steps. -/
def stepN (tr : Transcend) (cfg : Config) (o : Oracle) :
    ℕ → ModelState → ModelState
  | 0, st => st
  | k + 1, st => StartupModel.step tr cfg o (stepN tr cfg o k st)

/-- StartupModel.run_model: construct the model, run the horizon many
steps, then perform one final collect. -/
def StartupModel.run_model (tr : Transcend) (cfg : Config) (o : Oracle)
    (num_startups : ℕ) (steps : ℕ) : ModelState :=
  StartupModel.collect (stepN tr cfg o steps (StartupModel.init cfg num_startups o))

/-- The effect of the shock stage on one agent: the loop body when the
shock fires, the identity otherwise. -/
def shockAt (cfg : Config) (d : MonthDraws) (a : StartupAgent) : StartupAgent :=
  if d.shock_u < cfg.P_SHOCK then shockF d a else a

theorem length_mapFrom (f : ℕ → StartupAgent → StartupAgent) :
    ∀ (i : ℕ) (l : List StartupAgent), (mapFrom f i l).length = l.length := by
  intro i l
  induction l generalizing i with
  | nil => rfl
  | cons a rest ih => simp [mapFrom, ih]

theorem getD_mapFrom (f : ℕ → StartupAgent → StartupAgent) :
    ∀ (i : ℕ) (l : List StartupAgent) (j : ℕ), j < l.length →
      (mapFrom f i l).getD j default = f (i + j) (l.getD j default) := by
  intro i l
  induction l generalizing i with
  | nil => intro j h; simp at h
  | cons a rest ih =>
    intro j h
    cases j with
    | zero => simp [mapFrom]
    | succ j =>
      simp only [mapFrom, List.getD_cons_succ]
      rw [ih (i + 1) j (by simpa using Nat.lt_of_succ_lt_succ h)]
      ring_nf

theorem adoption_S (tr : Transcend) (cfg : Config) (g : Globals) (e : ℚ)
    (a : StartupAgent) : (stage_consumer_adoption tr cfg g e a).S = a.S := by
  simp only [stage_consumer_adoption]; split <;> rfl

theorem adoption_K (tr : Transcend) (cfg : Config) (g : Globals) (e : ℚ)
    (a : StartupAgent) : (stage_consumer_adoption tr cfg g e a).K = a.K := by
  simp only [stage_consumer_adoption]; split <;> rfl

theorem adoption_PMF (tr : Transcend) (cfg : Config) (g : Globals) (e : ℚ)
    (a : StartupAgent) : (stage_consumer_adoption tr cfg g e a).PMF = a.PMF := by
  simp only [stage_consumer_adoption]; split <;> rfl

theorem internal_S (cfg : Config) (a : StartupAgent) :
    (stage_internal_dynamics cfg a).S = a.S := by
  simp only [stage_internal_dynamics]; split <;> try rfl
  split <;> try rfl
  split <;> rfl

theorem internal_K (cfg : Config) (a : StartupAgent) :
    (stage_internal_dynamics cfg a).K = a.K := by
  simp only [stage_internal_dynamics]; split <;> try rfl
  split <;> try rfl
  split <;> rfl

theorem internal_PMF (cfg : Config) (a : StartupAgent) :
    (stage_internal_dynamics cfg a).PMF = a.PMF := by
  simp only [stage_internal_dynamics]; split <;> try rfl
  split <;> try rfl
  split <;> rfl

theorem pmf_update_S (tr : Transcend) (cfg : Config) (e : ℚ) (a : StartupAgent) :
    (stage_pmf_valuation_update tr cfg e a).S = a.S := by
  simp only [stage_pmf_valuation_update]; split <;> rfl

theorem pmf_update_K (tr : Transcend) (cfg : Config) (e : ℚ) (a : StartupAgent) :
    (stage_pmf_valuation_update tr cfg e a).K = a.K := by
  simp only [stage_pmf_valuation_update]; split <;> rfl

theorem funding_S (tr : Transcend) (cfg : Config) (g : Globals) (u : ℚ)
    (a : StartupAgent) : (stage_funding tr cfg g u a).S = a.S := by
  simp only [stage_funding, funding_logic]
  split <;> try rfl
  split <;> try rfl
  split <;> try rfl
  split <;> rfl

theorem funding_K (tr : Transcend) (cfg : Config) (g : Globals) (u : ℚ)
    (a : StartupAgent) : (stage_funding tr cfg g u a).K = a.K := by
  simp only [stage_funding, funding_logic]
  split <;> try rfl
  split <;> try rfl
  split <;> try rfl
  split <;> rfl

theorem funding_PMF (tr : Transcend) (cfg : Config) (g : Globals) (u : ℚ)
    (a : StartupAgent) : (stage_funding tr cfg g u a).PMF = a.PMF := by
  simp only [stage_funding, funding_logic]
  split <;> try rfl
  split <;> try rfl
  split <;> try rfl
  split <;> rfl

theorem funding_R (tr : Transcend) (cfg : Config) (g : Globals) (u : ℚ)
    (a : StartupAgent) : (stage_funding tr cfg g u a).R = a.R := by
  simp only [stage_funding, funding_logic]
  split <;> try rfl
  split <;> try rfl
  split <;> try rfl
  split <;> rfl

theorem policy_S (cfg : Config) (g : Globals) (a : StartupAgent) :
    (stage_policy cfg g a).S = a.S := by
  simp only [stage_policy]; split <;> try rfl
  split <;> rfl

theorem policy_K (cfg : Config) (g : Globals) (a : StartupAgent) :
    (stage_policy cfg g a).K = a.K := by
  simp only [stage_policy]; split <;> try rfl
  split <;> rfl

theorem policy_PMF (cfg : Config) (g : Globals) (a : StartupAgent) :
    (stage_policy cfg g a).PMF = a.PMF := by
  simp only [stage_policy]; split <;> try rfl
  split <;> rfl

theorem policy_R (cfg : Config) (g : Globals) (a : StartupAgent) :
    (stage_policy cfg g a).R = a.R := by
  simp only [stage_policy]; split <;> try rfl
  split <;> rfl

theorem adoption_dead (tr : Transcend) (cfg : Config) (g : Globals) (e : ℚ)
    (a : StartupAgent) (h : a.S = false) :
    stage_consumer_adoption tr cfg g e a = { a with R := 0 } := by
  simp [stage_consumer_adoption, h]

theorem internal_dead (cfg : Config) (a : StartupAgent) (h : a.S = false) :
    stage_internal_dynamics cfg a = a := by
  simp [stage_internal_dynamics, h]

theorem capital_dead (a : StartupAgent) (steps : ℕ) (h : a.S = false) :
    stage_capital_update a steps = a := by
  simp [stage_capital_update, h]

theorem pmf_update_dead (tr : Transcend) (cfg : Config) (e : ℚ)
    (a : StartupAgent) (h : a.S = false) :
    stage_pmf_valuation_update tr cfg e a = a := by
  simp [stage_pmf_valuation_update, h]

theorem funding_dead (tr : Transcend) (cfg : Config) (g : Globals) (u : ℚ)
    (a : StartupAgent) (h : a.S = false) :
    stage_funding tr cfg g u a = { a with funding_received := 0 } := by
  simp [stage_funding, h]

theorem policy_dead (cfg : Config) (g : Globals) (a : StartupAgent)
    (h : a.S = false) : stage_policy cfg g a = a := by
  simp [stage_policy, h]

theorem shockF_dead (d : MonthDraws) (a : StartupAgent) (h : a.S = false) :
    shockF d a = a := by
  simp [shockF, h]

theorem shockF_S (d : MonthDraws) (a : StartupAgent) : (shockF d a).S = a.S := by
  simp only [shockF]; split <;> rfl

theorem shockF_K (d : MonthDraws) (a : StartupAgent) : (shockF d a).K = a.K := by
  simp only [shockF]; split <;> rfl

/-- Full case analysis of stage_capital_update on a live agent: capital
absorbs revenue, burn and funding, the stored funding resets, and the agent
either dies (capital clamped to 0, death time recorded, runway 0) or stays
alive with its runway recomputed. -/
theorem capital_alive (a : StartupAgent) (steps : ℕ) (h : a.S = true) :
    stage_capital_update a steps =
      if a.K + a.R - a.B + a.funding_received ≤ 0 then
        { a with K := 0, funding_received := 0, S := false,
                 death_time := some steps, runway := some 0 }
      else
        { a with K := a.K + a.R - a.B + a.funding_received,
                 funding_received := 0,
                 runway := if 0 < a.B then
                     some ((a.K + a.R - a.B + a.funding_received) / a.B)
                   else none } := by
  by_cases hle : a.K + a.R - a.B + a.funding_received ≤ 0
  · simp [stage_capital_update, h, hle]
  · by_cases hB : 0 < a.B
    · simp [stage_capital_update, h, hle, hB]
    · simp [stage_capital_update, h, hle, hB]

/-- A dead agent passes through one whole month of agent stages with only
revenue forced to 0 and the stored funding reset to 0. -/
theorem agentMonth_dead (tr : Transcend) (cfg : Config) (g : Globals)
    (dr : AgentDraws) (a : StartupAgent) (h : a.S = false) :
    agentMonth tr cfg g dr a = { a with R := 0, funding_received := 0 } := by
  unfold agentMonth
  rw [adoption_dead tr cfg g dr.eps_r a h]
  rw [internal_dead cfg _ (by simp [h])]
  rw [capital_dead _ _ (by simp [h])]
  rw [pmf_update_dead tr cfg _ _ (by simp [h])]
  rw [funding_dead tr cfg g _ _ (by simp [h])]
  rw [policy_dead cfg g _ (by simp [h])]

theorem agents_update_market (cfg : Config) (st : ModelState) :
    (StartupModel.update_market cfg st).agents = st.agents := rfl

theorem steps_update_market (cfg : Config) (st : ModelState) :
    (StartupModel.update_market cfg st).steps = st.steps := rfl

theorem length_apply_shocks (cfg : Config) (d : MonthDraws) (st : ModelState) :
    (StartupModel.apply_shocks cfg d st).agents.length = st.agents.length := by
  unfold StartupModel.apply_shocks
  split <;> simp

theorem steps_apply_shocks (cfg : Config) (d : MonthDraws) (st : ModelState) :
    (StartupModel.apply_shocks cfg d st).steps = st.steps := by
  unfold StartupModel.apply_shocks
  split <;> rfl

theorem agentAt_apply_shocks (cfg : Config) (d : MonthDraws) (st : ModelState)
    (i : ℕ) (h : i < st.agents.length) :
    agentAt (StartupModel.apply_shocks cfg d st) i = shockAt cfg d (agentAt st i) := by
  unfold StartupModel.apply_shocks shockAt agentAt
  split
  · rw [List.getD_eq_getElem _ _ (by simpa using h), List.getD_eq_getElem _ _ h]
    simp
  · rfl

theorem length_shocked (cfg : Config) (d : MonthDraws) (st : ModelState) :
    (StartupModel.update_market cfg (StartupModel.apply_shocks cfg d st)).agents.length
      = st.agents.length := by
  rw [agents_update_market, length_apply_shocks]

theorem sched_step_length (tr : Transcend) (cfg : Config) (d : MonthDraws)
    (st : ModelState) :
    (StagedActivation.step tr cfg d st).agents.length = st.agents.length := by
  simp only [StagedActivation.step]
  simp [length_mapFrom, length_shocked]

theorem sched_step_steps (tr : Transcend) (cfg : Config) (d : MonthDraws)
    (st : ModelState) :
    (StagedActivation.step tr cfg d st).steps = st.steps + 1 := by
  simp only [StagedActivation.step]
  rw [steps_update_market, steps_apply_shocks]

/-- Pointwise decomposition of one scheduler step: position i of the new
population is the six stage composition, at the post update globals, of the
shock effect on position i of the old population. -/
theorem agentAt_sched_step (tr : Transcend) (cfg : Config) (d : MonthDraws)
    (st : ModelState) (i : ℕ) (h : i < st.agents.length) :
    agentAt (StagedActivation.step tr cfg d st) i =
      agentMonth tr cfg
        (globalsOf (StartupModel.update_market cfg (StartupModel.apply_shocks cfg d st)))
        (d.agent i) (shockAt cfg d (agentAt st i)) := by
  have hL : ∀ n : ℕ, n = st.agents.length → i <
      (StartupModel.update_market cfg (StartupModel.apply_shocks cfg d st)).agents.length := by
    intro n _
    rw [length_shocked]; exact h
  simp only [StagedActivation.step, agentAt]
  rw [getD_mapFrom _ 0 _ i (by simp [length_mapFrom, length_shocked, h])]
  rw [getD_mapFrom _ 0 _ i (by simp [length_mapFrom, length_shocked, h])]
  rw [getD_mapFrom _ 0 _ i (by simp [length_mapFrom, length_shocked, h])]
  rw [getD_mapFrom _ 0 _ i (by simp [length_mapFrom, length_shocked, h])]
  rw [getD_mapFrom _ 0 _ i (by simp [length_mapFrom, length_shocked, h])]
  rw [getD_mapFrom _ 0 _ i (by simp [length_shocked, h])]
  rw [show (StartupModel.update_market cfg (StartupModel.apply_shocks cfg d st)).agents.getD i default
        = agentAt (StartupModel.apply_shocks cfg d st) i from rfl]
  rw [agentAt_apply_shocks cfg d st i h]
  simp [agentMonth, agentAt]

theorem agents_collect (st : ModelState) :
    (StartupModel.collect st).agents = st.agents := rfl

theorem steps_collect (st : ModelState) :
    (StartupModel.collect st).steps = st.steps := rfl

theorem agentAt_collect (st : ModelState) (i : ℕ) :
    agentAt (StartupModel.collect st) i = agentAt st i := rfl

theorem model_step_length (tr : Transcend) (cfg : Config) (o : Oracle)
    (st : ModelState) :
    (StartupModel.step tr cfg o st).agents.length = st.agents.length := by
  unfold StartupModel.step
  rw [sched_step_length]
  rw [show (StartupModel.collect st).agents = st.agents from rfl]

theorem model_step_steps (tr : Transcend) (cfg : Config) (o : Oracle)
    (st : ModelState) :
    (StartupModel.step tr cfg o st).steps = st.steps + 1 := by
  unfold StartupModel.step
  rw [sched_step_steps, steps_collect]

/-- Pointwise decomposition of one model step. -/
theorem agentAt_model_step (tr : Transcend) (cfg : Config) (o : Oracle)
    (st : ModelState) (i : ℕ) (h : i < st.agents.length) :
    agentAt (StartupModel.step tr cfg o st) i =
      agentMonth tr cfg
        (globalsOf (StartupModel.update_market cfg
          (StartupModel.apply_shocks cfg (o.month st.steps) (StartupModel.collect st))))
        ((o.month st.steps).agent i)
        (shockAt cfg (o.month st.steps) (agentAt st i)) := by
  unfold StartupModel.step
  rw [agentAt_sched_step tr cfg _ _ i (by rw [agents_collect]; exact h)]
  rw [agentAt_collect]

theorem stepN_length (tr : Transcend) (cfg : Config) (o : Oracle) (k : ℕ)
    (st : ModelState) :
    (stepN tr cfg o k st).agents.length = st.agents.length := by
  induction k with
  | zero => rfl
  | succ k ih => rw [stepN, model_step_length, ih]

theorem stepN_steps (tr : Transcend) (cfg : Config) (o : Oracle) (k : ℕ)
    (st : ModelState) :
    (stepN tr cfg o k st).steps = st.steps + k := by
  induction k with
  | zero => rfl
  | succ k ih => rw [stepN, model_step_steps, ih]; ring

theorem stepN_add (tr : Transcend) (cfg : Config) (o : Oracle) (t k : ℕ)
    (st : ModelState) :
    stepN tr cfg o (t + k) st = stepN tr cfg o k (stepN tr cfg o t st) := by
  induction k with
  | zero => rfl
  | succ k ih => rw [show t + (k + 1) = (t + k) + 1 from rfl, stepN, ih, stepN]

theorem init_length (cfg : Config) (n : ℕ) (o : Oracle) :
    (StartupModel.init cfg n o).agents.length = n := by
  simp [StartupModel.init]

theorem init_steps (cfg : Config) (n : ℕ) (o : Oracle) :
    (StartupModel.init cfg n o).steps = 0 := rfl

theorem agentAt_init (cfg : Config) (n : ℕ) (o : Oracle) (i : ℕ) (h : i < n) :
    agentAt (StartupModel.init cfg n o) i = StartupAgent.init cfg (o.init i) := by
  unfold StartupModel.init agentAt
  rw [List.getD_eq_getElem _ _ (by simpa using h)]
  simp

/-- Any per agent predicate preserved by the shock effect and by the six
stage month composition (at arbitrary globals and draws) is preserved by
any number of model steps, agent position by agent position. -/
theorem stepN_inv (tr : Transcend) (cfg : Config) (o : Oracle)
    (P : StartupAgent → Prop)
    (hS : ∀ d a, P a → P (shockF d a))
    (hM : ∀ g dr a, P a → P (agentMonth tr cfg g dr a)) (k : ℕ)
    (st : ModelState) (i : ℕ) (h : i < st.agents.length)
    (hP : P (agentAt st i)) : P (agentAt (stepN tr cfg o k st) i) := by
  induction k with
  | zero => exact hP
  | succ k ih =>
    rw [stepN]
    rw [agentAt_model_step tr cfg o _ i (by rw [stepN_length]; exact h)]
    apply hM
    unfold shockAt
    split
    · exact hS _ _ ih
    · exact ih

theorem capital_PMF (a : StartupAgent) (steps : ℕ) :
    (stage_capital_update a steps).PMF = a.PMF := by
  by_cases h : a.S = false
  · rw [capital_dead _ _ h]
  · have h' : a.S = true := by simpa using h
    rw [capital_alive _ _ h']
    split
    · simp
    · simp

/-- Concrete transcendental interpretation used by witnesses. -/
def tr0 : Transcend := { exp := fun _ => 1, log := fun _ => 0 }

/-- Concrete globals at step counter 5 (an off cadence month). -/
def g5 : Globals := { market_size := 0, competition_index := 0, steps := 5 }

/-- Concrete globals at step counter 0. -/
def gZ : Globals := { market_size := 0, competition_index := 0, steps := 0 }

/-- Concrete month draws: no shock fires (draw 1 is not below the default
shock probability), all magnitudes and noises 0. -/
def d0 : MonthDraws :=
  { shock_u := 1, delta_pmf := 0, delta_m := 0
    agent := fun _ => { eps_r := 0, eps_p := 0, fund_u := 0 } }

/-- Concrete oracle: every init draw is the zero record, every month uses
d0. -/
def o0 : Oracle := { init := fun _ => { k0 := 0, b0 := 0, pmf0 := 0 }, month := fun _ => d0 }

/-- Claim C5: in the capital update stage of a live entity, K becomes
K + R - B + F and the stored funding resets to 0; when the new K is
nonpositive the entity dies exactly there (K clamped to 0, S dead, death
time recorded as the current step count), otherwise it stays alive with
death time untouched; a dead entity passes through unchanged (so the death
time is recorded once only), and no other stage (adoption, internal
dynamics, PMF and valuation, funding, policy) nor the shock effect ever
changes S. -/
theorem c5_capital_update_death (tr : Transcend) (cfg : Config) (g : Globals)
    (u e ep : ℚ) (d : MonthDraws) (steps : ℕ) (a : StartupAgent) :
    (a.S = true →
      (stage_capital_update a steps).funding_received = 0
      ∧ (a.K + a.R - a.B + a.funding_received ≤ 0 →
          (stage_capital_update a steps).K = 0
          ∧ (stage_capital_update a steps).S = false
          ∧ (stage_capital_update a steps).death_time = some steps)
      ∧ (¬ a.K + a.R - a.B + a.funding_received ≤ 0 →
          (stage_capital_update a steps).K = a.K + a.R - a.B + a.funding_received
          ∧ (stage_capital_update a steps).S = true
          ∧ (stage_capital_update a steps).death_time = a.death_time))
    ∧ (a.S = false → stage_capital_update a steps = a)
    ∧ (stage_consumer_adoption tr cfg g e a).S = a.S
    ∧ (stage_internal_dynamics cfg a).S = a.S
    ∧ (stage_pmf_valuation_update tr cfg ep a).S = a.S
    ∧ (stage_funding tr cfg g u a).S = a.S
    ∧ (stage_policy cfg g a).S = a.S
    ∧ (shockF d a).S = a.S := by
  refine ⟨?_, fun h => capital_dead a steps h, adoption_S tr cfg g e a,
    internal_S cfg a, pmf_update_S tr cfg ep a, funding_S tr cfg g u a,
    policy_S cfg g a, shockF_S d a⟩
  intro hS
  rw [capital_alive a steps hS]
  refine ⟨?_, fun hle => ?_, fun hgt => ?_⟩
  · split <;> simp
  · rw [if_pos hle]; simp
  · rw [if_neg hgt]; simp [hS]

theorem c5_witness :
    (stage_capital_update
        { K := 1, B := 2, R := 0, PMF := 1/2, V := 7, S := true,
          just_funded := false, funding_received := 0, runway := some (1/2),
          death_time := none } 5).S = false
    ∧ (stage_capital_update
        { K := 1, B := 2, R := 0, PMF := 1/2, V := 7, S := true,
          just_funded := false, funding_received := 0, runway := some (1/2),
          death_time := none } 5).K = 0
    ∧ (stage_capital_update
        { K := 1, B := 2, R := 0, PMF := 1/2, V := 7, S := true,
          just_funded := false, funding_received := 0, runway := some (1/2),
          death_time := none } 5).death_time = some 5 := by
  have h := (c5_capital_update_death tr0 defaultConfig g5 0 0 0 d0 5
    { K := 1, B := 2, R := 0, PMF := 1/2, V := 7, S := true,
      just_funded := false, funding_received := 0, runway := some (1/2),
      death_time := none }).1 (by decide)
  have h2 := h.2.1 (by norm_num)
  exact ⟨h2.2.1, h2.1, h2.2.2⟩

/-- Claim C6: with the configured parameters, an entity whose burn rate is
0 has its revenue over burn quotient computed as 0 by the guarded
expression of the funding stage (no division by zero is performed), and its
funding_received is set to 0 by the funding stage regardless of its PMF and
of the month. -/
theorem c6_zero_burn (tr : Transcend) (g : Globals) (u : ℚ) (a : StartupAgent)
    (hB : a.B = 0) :
    revenue_burn_quot a = 0
    ∧ (stage_funding tr defaultConfig g u a).funding_received = 0 := by
  have hq : revenue_burn_quot a = 0 := by simp [revenue_burn_quot, hB]
  refine ⟨hq, ?_⟩
  have hcond : ¬ (revenue_burn_quot a ≥ defaultConfig.ALPHA_REVENUE_BURN
      ∧ a.PMF ≥ defaultConfig.PMF_MIN) := by
    rw [hq]
    intro hc
    have h1 := hc.1
    norm_num [defaultConfig] at h1
  unfold stage_funding
  split
  · simp
  · split
    · simp
    · simp only [funding_logic]
      rw [if_pos hcond]

theorem c6_witness :
    ({ K := 5, B := 0, R := 9, PMF := 1, V := 7, S := true,
       just_funded := false, funding_received := 3, runway := none,
       death_time := none } : StartupAgent).B = 0
    ∧ revenue_burn_quot
        { K := 5, B := 0, R := 9, PMF := 1, V := 7, S := true,
          just_funded := false, funding_received := 3, runway := none,
          death_time := none } = 0
    ∧ (stage_funding tr0 defaultConfig gZ 0
        { K := 5, B := 0, R := 9, PMF := 1, V := 7, S := true,
          just_funded := false, funding_received := 3, runway := none,
          death_time := none }).funding_received = 0 := by
  have h := c6_zero_burn tr0 gZ 0
    { K := 5, B := 0, R := 9, PMF := 1, V := 7, S := true,
      just_funded := false, funding_received := 3, runway := none,
      death_time := none } (by decide)
  exact ⟨by decide, h.1, h.2⟩

/-- Claim C7: on a month whose step counter is not a multiple of the
funding interval, the funding stage only sets funding_received to 0 and
changes nothing else; on a month whose step counter is not a multiple of
the policy interval, the policy stage is the identity (in particular B is
unchanged). -/
theorem c7_cadence (tr : Transcend) (cfg : Config) (g : Globals) (u : ℚ)
    (a : StartupAgent) :
    (g.steps % cfg.FUNDING_INTERVAL ≠ 0 →
      stage_funding tr cfg g u a = { a with funding_received := 0 })
    ∧ (g.steps % cfg.POLICY_INTERVAL ≠ 0 → stage_policy cfg g a = a) := by
  constructor
  · intro hf
    unfold stage_funding
    split <;> rfl
  · intro hp
    unfold stage_policy
    split <;> rfl

theorem c7_witness :
    g5.steps % defaultConfig.FUNDING_INTERVAL ≠ 0
    ∧ g5.steps % defaultConfig.POLICY_INTERVAL ≠ 0
    ∧ stage_funding tr0 defaultConfig g5 0
        { K := 5, B := 1, R := 9, PMF := 1, V := 7, S := true,
          just_funded := false, funding_received := 3, runway := some 5,
          death_time := none }
      = { K := 5, B := 1, R := 9, PMF := 1, V := 7, S := true,
          just_funded := false, funding_received := 0, runway := some 5,
          death_time := none }
    ∧ stage_policy defaultConfig g5
        { K := 5, B := 1, R := 9, PMF := 1, V := 7, S := true,
          just_funded := false, funding_received := 3, runway := some 5,
          death_time := none }
      = { K := 5, B := 1, R := 9, PMF := 1, V := 7, S := true,
          just_funded := false, funding_received := 3, runway := some 5,
          death_time := none } := by
  have h := c7_cadence tr0 defaultConfig g5 0
    { K := 5, B := 1, R := 9, PMF := 1, V := 7, S := true,
      just_funded := false, funding_received := 3, runway := some 5,
      death_time := none }
  exact ⟨by decide, by decide, h.1 (by decide), h.2 (by decide)⟩

/-- Claim C8: each month one Bernoulli draw decides at most one shock
event; when it fires, the one shared PMF delta is applied, clipped into the
unit interval, to every alive agent while dead agents are untouched, and
the one shared market delta rescales the market floored at 0; when it does
not fire the shock stage is the identity; and the unconditional geometric
market growth of the market update stage applies after any shock
adjustment. -/
theorem c8_shock_structure (cfg : Config) (d : MonthDraws) (st : ModelState) :
    (d.shock_u < cfg.P_SHOCK →
      (∀ i, i < st.agents.length →
        ((agentAt st i).S = true →
          agentAt (StartupModel.apply_shocks cfg d st) i
            = { agentAt st i with
                PMF := min 1 (max 0 ((agentAt st i).PMF + d.delta_pmf)) })
        ∧ ((agentAt st i).S = false →
          agentAt (StartupModel.apply_shocks cfg d st) i = agentAt st i))
      ∧ (StartupModel.apply_shocks cfg d st).market_size
          = max 0 (st.market_size * (1 + d.delta_m)))
    ∧ (¬ d.shock_u < cfg.P_SHOCK → StartupModel.apply_shocks cfg d st = st)
    ∧ (StartupModel.update_market cfg (StartupModel.apply_shocks cfg d st)).market_size
        = (StartupModel.apply_shocks cfg d st).market_size * (1 + cfg.GROWTH_RATE_M) := by
  refine ⟨fun hs => ⟨fun i hi => ?_, ?_⟩, fun hs => ?_, rfl⟩
  · rw [agentAt_apply_shocks cfg d st i hi]
    unfold shockAt
    rw [if_pos hs]
    unfold shockF
    constructor
    · intro hA
      rw [if_pos hA]
    · intro hD
      rw [if_neg (by simp [hD])]
  · unfold StartupModel.apply_shocks
    rw [if_pos hs]
  · unfold StartupModel.apply_shocks
    rw [if_neg hs]

/-- Concrete alive agent for witnesses. -/
def aliveA : StartupAgent :=
  { K := 10, B := 1, R := 2, PMF := 1/2, V := 3, S := true,
    just_funded := false, funding_received := 0, runway := some 10,
    death_time := none }

/-- Concrete dead agent for witnesses. -/
def deadA : StartupAgent :=
  { K := 0, B := 1, R := 0, PMF := 1/4, V := 3, S := false,
    just_funded := false, funding_received := 0, runway := some 0,
    death_time := some 2 }

/-- Concrete month draws whose shock fires (draw 0 is below the default
shock probability). -/
def dS : MonthDraws :=
  { shock_u := 0, delta_pmf := 2, delta_m := 1
    agent := fun _ => { eps_r := 0, eps_p := 0, fund_u := 0 } }

/-- Concrete two agent model state for witnesses. -/
def stW : ModelState :=
  { market_size := 100, initial_startups := 2, competition_index := 1/2,
    steps := 3, agents := [aliveA, deadA], model_vars := [], agent_vars := [] }

theorem c8_witness :
    dS.shock_u < defaultConfig.P_SHOCK
    ∧ agentAt (StartupModel.apply_shocks defaultConfig dS stW) 0
        = { agentAt stW 0 with
            PMF := min 1 (max 0 ((agentAt stW 0).PMF + dS.delta_pmf)) }
    ∧ agentAt (StartupModel.apply_shocks defaultConfig dS stW) 1 = agentAt stW 1
    ∧ (StartupModel.apply_shocks defaultConfig dS stW).market_size
        = max 0 (stW.market_size * (1 + dS.delta_m)) := by
  have hs : dS.shock_u < defaultConfig.P_SHOCK := by
    norm_num [dS, defaultConfig]
  have h := c8_shock_structure defaultConfig dS stW
  have h1 := h.1 hs
  exact ⟨hs, (h1.1 0 (by decide)).1 (by decide),
    (h1.1 1 (by decide)).2 (by decide), h1.2⟩

/-- Claim C9: the scheduler step counter starts at 0 and is incremented
only after the stages of a month have run, so the stages of the first
simulated month observe counter 0; at counter 0 the funding stage of a live
agent runs the full investor logic and the policy stage of a live agent
applies the burn adjustment (0 mod any interval is 0), and a first month
death records death time 0. -/
theorem c9_first_month (tr : Transcend) (cfg : Config) (o : Oracle) (n : ℕ)
    (u : ℚ) (g : Globals) (a : StartupAgent) :
    (StartupModel.init cfg n o).steps = 0
    ∧ (∀ (d : MonthDraws) (st : ModelState),
        (StagedActivation.step tr cfg d st).steps = st.steps + 1)
    ∧ (g.steps = 0 → a.S = true →
        stage_funding tr cfg g u a = funding_logic tr cfg g u a)
    ∧ (g.steps = 0 → a.S = true →
        stage_policy cfg g a
          = { a with B := max 0 (a.B + (cfg.C_REG - cfg.S_G + cfg.TAU * a.R)) })
    ∧ (a.S = true → a.K + a.R - a.B + a.funding_received ≤ 0 →
        (stage_capital_update a 0).death_time = some 0) := by
  refine ⟨rfl, fun d st => sched_step_steps tr cfg d st, fun h0 hS => ?_,
    fun h0 hS => ?_, fun hS hle => ?_⟩
  · unfold stage_funding
    rw [if_neg (by simp [hS]), if_neg (by simp [h0])]
  · unfold stage_policy
    rw [if_neg (by simp [hS]), if_neg (by simp [h0])]
  · rw [capital_alive a 0 hS, if_pos hle]

/-- Concrete live agent that dies in its capital update at step counter 0. -/
def aDying : StartupAgent :=
  { K := 1, B := 2, R := 0, PMF := 1/2, V := 7, S := true,
    just_funded := false, funding_received := 0, runway := some (1/2),
    death_time := none }

theorem c9_witness :
    (StartupModel.init defaultConfig 1 o0).steps = 0
    ∧ stage_funding tr0 defaultConfig gZ 0 aDying
        = funding_logic tr0 defaultConfig gZ 0 aDying
    ∧ stage_policy defaultConfig gZ aDying
        = { aDying with
            B := max 0 (aDying.B + (defaultConfig.C_REG - defaultConfig.S_G
                  + defaultConfig.TAU * aDying.R)) }
    ∧ (stage_capital_update aDying 0).death_time = some 0 := by
  have h := c9_first_month tr0 defaultConfig o0 1 0 gZ aDying
  exact ⟨h.1, h.2.2.1 rfl (by decide), h.2.2.2.1 rfl (by decide),
    h.2.2.2.2 (by decide) (by norm_num [aDying])⟩

theorem clip01 (x : ℚ) : 0 ≤ min 1 (max 0 x) ∧ min 1 (max 0 x) ≤ 1 :=
  ⟨le_min (by norm_num) (le_max_left 0 x), min_le_left 1 _⟩

theorem shockF_PMF_bounds (d : MonthDraws) (a : StartupAgent)
    (h0 : 0 ≤ a.PMF) (h1 : a.PMF ≤ 1) :
    0 ≤ (shockF d a).PMF ∧ (shockF d a).PMF ≤ 1 := by
  unfold shockF
  split
  · exact clip01 (a.PMF + d.delta_pmf)
  · exact ⟨h0, h1⟩

theorem pmf_stage_bounds (tr : Transcend) (cfg : Config) (e : ℚ)
    (a : StartupAgent) (h0 : 0 ≤ a.PMF) (h1 : a.PMF ≤ 1) :
    0 ≤ (stage_pmf_valuation_update tr cfg e a).PMF
    ∧ (stage_pmf_valuation_update tr cfg e a).PMF ≤ 1 := by
  unfold stage_pmf_valuation_update
  split
  · exact ⟨h0, h1⟩
  · exact clip01 (a.PMF + cfg.ETA * tr.log (1 + a.R) + e)

theorem agentMonth_PMF_bounds (tr : Transcend) (cfg : Config) (g : Globals)
    (dr : AgentDraws) (a : StartupAgent) (h : 0 ≤ a.PMF ∧ a.PMF ≤ 1) :
    0 ≤ (agentMonth tr cfg g dr a).PMF ∧ (agentMonth tr cfg g dr a).PMF ≤ 1 := by
  unfold agentMonth
  rw [policy_PMF, funding_PMF]
  apply pmf_stage_bounds
  · rw [capital_PMF, internal_PMF, adoption_PMF]; exact h.1
  · rw [capital_PMF, internal_PMF, adoption_PMF]; exact h.2

/-- Claim C2: the PMF of every entity lies in the unit interval after
initialization (the Beta sample lies in the unit interval), after the shock
stage, after the PMF update stage, and hence at every position and every
month of any run whose initial PMF draws lie in the unit interval. -/
theorem c2_pmf_bounds (tr : Transcend) (cfg : Config) (o : Oracle) :
    (∀ idr : InitDraws, 0 ≤ idr.pmf0 → idr.pmf0 ≤ 1 →
      0 ≤ (StartupAgent.init cfg idr).PMF ∧ (StartupAgent.init cfg idr).PMF ≤ 1)
    ∧ (∀ (d : MonthDraws) (st : ModelState),
        (∀ i, i < st.agents.length →
          0 ≤ (agentAt st i).PMF ∧ (agentAt st i).PMF ≤ 1) →
        ∀ i, i < st.agents.length →
          0 ≤ (agentAt (StartupModel.apply_shocks cfg d st) i).PMF
          ∧ (agentAt (StartupModel.apply_shocks cfg d st) i).PMF ≤ 1)
    ∧ (∀ (e : ℚ) (a : StartupAgent), 0 ≤ a.PMF → a.PMF ≤ 1 →
        0 ≤ (stage_pmf_valuation_update tr cfg e a).PMF
        ∧ (stage_pmf_valuation_update tr cfg e a).PMF ≤ 1)
    ∧ (∀ n : ℕ, (∀ j, 0 ≤ (o.init j).pmf0 ∧ (o.init j).pmf0 ≤ 1) →
        ∀ k i, i < n →
          0 ≤ (agentAt (stepN tr cfg o k (StartupModel.init cfg n o)) i).PMF
          ∧ (agentAt (stepN tr cfg o k (StartupModel.init cfg n o)) i).PMF ≤ 1) := by
  refine ⟨fun idr h0 h1 => ⟨h0, h1⟩, fun d st hst i hi => ?_,
    fun e a h0 h1 => pmf_stage_bounds tr cfg e a h0 h1, fun n ho k i hi => ?_⟩
  · rw [agentAt_apply_shocks cfg d st i hi]
    unfold shockAt
    split
    · exact shockF_PMF_bounds d _ (hst i hi).1 (hst i hi).2
    · exact hst i hi
  · apply stepN_inv tr cfg o (fun a => 0 ≤ a.PMF ∧ a.PMF ≤ 1)
    · exact fun d a hp => shockF_PMF_bounds d a hp.1 hp.2
    · exact fun g dr a hp => agentMonth_PMF_bounds tr cfg g dr a hp
    · rw [init_length]; exact hi
    · rw [agentAt_init cfg n o i hi]
      exact ⟨(ho i).1, (ho i).2⟩

theorem c2_witness :
    (∀ j, 0 ≤ (o0.init j).pmf0 ∧ (o0.init j).pmf0 ≤ 1)
    ∧ (0 ≤ (agentAt (stepN tr0 defaultConfig o0 2
          (StartupModel.init defaultConfig 1 o0)) 0).PMF
       ∧ (agentAt (stepN tr0 defaultConfig o0 2
          (StartupModel.init defaultConfig 1 o0)) 0).PMF ≤ 1) := by
  have ho : ∀ j, 0 ≤ (o0.init j).pmf0 ∧ (o0.init j).pmf0 ≤ 1 := by
    intro j
    constructor <;> norm_num [o0]
  exact ⟨ho, (c2_pmf_bounds tr0 defaultConfig o0).2.2.2 1 ho 2 0 (by decide)⟩

/-- If an agent arrives dead only with capital 0, then after one month of
agent stages a dead agent has capital 0 (death inside the month clamps
capital to 0, and nothing after death changes it). -/
theorem agentMonth_S_false_K (tr : Transcend) (cfg : Config) (g : Globals)
    (dr : AgentDraws) (a : StartupAgent) (hP : a.S = false → a.K = 0)
    (hd : (agentMonth tr cfg g dr a).S = false) :
    (agentMonth tr cfg g dr a).K = 0 := by
  by_cases ha : a.S = false
  · rw [agentMonth_dead tr cfg g dr a ha]
    exact hP ha
  · have ha' : a.S = true := by simpa using ha
    unfold agentMonth at hd ⊢
    set c := stage_internal_dynamics cfg (stage_consumer_adoption tr cfg g dr.eps_r a) with hc
    have hcS : c.S = true := by rw [hc, internal_S, adoption_S]; exact ha'
    rw [capital_alive c g.steps hcS] at hd ⊢
    by_cases hle : c.K + c.R - c.B + c.funding_received ≤ 0
    · rw [if_pos hle]
      rw [policy_K, funding_K, pmf_update_K]
    · rw [if_neg hle] at hd
      rw [policy_S, funding_S, pmf_update_S] at hd
      exact absurd hd (by simp [hcS])

/-- A dead agent with capital 0 stays dead through one model step, with
revenue forced to 0 and capital still 0. -/
theorem dead_after_one_step (tr : Transcend) (cfg : Config) (o : Oracle)
    (st : ModelState) (i : ℕ) (h : i < st.agents.length)
    (hd : (agentAt st i).S = false) (hK : (agentAt st i).K = 0) :
    (agentAt (StartupModel.step tr cfg o st) i).S = false
    ∧ (agentAt (StartupModel.step tr cfg o st) i).R = 0
    ∧ (agentAt (StartupModel.step tr cfg o st) i).K = 0 := by
  rw [agentAt_model_step tr cfg o st i h]
  have hsa : shockAt cfg (o.month st.steps) (agentAt st i) = agentAt st i := by
    unfold shockAt
    split
    · exact shockF_dead _ _ hd
    · rfl
  rw [hsa, agentMonth_dead _ _ _ _ _ hd]
  exact ⟨hd, rfl, hK⟩

/-- Claim C1: in any run, once an entity is dead at month t it is dead at
every month t + k with k at least 1, and its revenue and capital are 0 at
all those months. -/
theorem c1_monotonic_death (tr : Transcend) (cfg : Config) (o : Oracle)
    (n t k i : ℕ) (hk : 1 ≤ k) (hi : i < n)
    (hdead : (agentAt (stepN tr cfg o t (StartupModel.init cfg n o)) i).S = false) :
    (agentAt (stepN tr cfg o (t + k) (StartupModel.init cfg n o)) i).S = false
    ∧ (agentAt (stepN tr cfg o (t + k) (StartupModel.init cfg n o)) i).R = 0
    ∧ (agentAt (stepN tr cfg o (t + k) (StartupModel.init cfg n o)) i).K = 0 := by
  have hlen0 : i < (StartupModel.init cfg n o).agents.length := by
    rw [init_length]; exact hi
  have hinv : (agentAt (stepN tr cfg o t (StartupModel.init cfg n o)) i).S = false →
      (agentAt (stepN tr cfg o t (StartupModel.init cfg n o)) i).K = 0 := by
    apply stepN_inv tr cfg o (fun a => a.S = false → a.K = 0)
    · intro d a hP hfd
      rw [shockF_K]
      exact hP (by rw [← shockF_S d a]; exact hfd)
    · intro g dr a hP
      exact agentMonth_S_false_K tr cfg g dr a hP
    · exact hlen0
    · rw [agentAt_init cfg n o i hi]
      intro hfd
      simp [StartupAgent.init] at hfd
  have hK0 := hinv hdead
  obtain ⟨m, rfl⟩ : ∃ m, k = m + 1 := ⟨k - 1, by omega⟩
  have e1 : t + (m + 1) = (t + 1) + m := by omega
  rw [e1, stepN_add]
  have e2 : stepN tr cfg o (t + 1) (StartupModel.init cfg n o)
      = StartupModel.step tr cfg o (stepN tr cfg o t (StartupModel.init cfg n o)) := by
    rw [stepN_add tr cfg o t 1]
    simp [stepN]
  rw [e2]
  have hlen_t : i < (stepN tr cfg o t (StartupModel.init cfg n o)).agents.length := by
    rw [stepN_length]; exact hlen0
  have h1 := dead_after_one_step tr cfg o _ i hlen_t hdead hK0
  apply stepN_inv tr cfg o (fun a => a.S = false ∧ a.R = 0 ∧ a.K = 0)
  · intro d a hQ
    rw [shockF_dead d a hQ.1]
    exact hQ
  · intro g dr a hQ
    rw [agentMonth_dead tr cfg g dr a hQ.1]
    exact ⟨hQ.1, rfl, hQ.2.2⟩
  · rw [model_step_length]; exact hlen_t
  · exact h1

/-- In the concrete one agent run with zero draws, the agent is dead after
the first month (its initial capital and burn are 0, so its first capital
update yields 0 and kills it). -/
theorem deadRunFact :
    (agentAt (stepN tr0 defaultConfig o0 1
      (StartupModel.init defaultConfig 1 o0)) 0).S = false := by
  have hst : stepN tr0 defaultConfig o0 1 (StartupModel.init defaultConfig 1 o0)
      = StartupModel.step tr0 defaultConfig o0 (StartupModel.init defaultConfig 1 o0) := by
    simp [stepN]
  rw [hst, agentAt_model_step tr0 defaultConfig o0 _ 0 (by rw [init_length]; norm_num)]
  rw [agentAt_init defaultConfig 1 o0 0 (by norm_num)]
  norm_num [shockAt, o0, d0, defaultConfig, StartupAgent.init, agentMonth,
    stage_consumer_adoption, stage_internal_dynamics, stage_capital_update,
    stage_pmf_valuation_update, stage_funding, stage_policy, funding_logic,
    runway_low, globalsOf, StartupModel.update_market, StartupModel.apply_shocks,
    StartupModel.collect, StartupModel.init, tr0, revenue_burn_quot]

theorem c1_witness :
    (agentAt (stepN tr0 defaultConfig o0 1
      (StartupModel.init defaultConfig 1 o0)) 0).S = false
    ∧ ((agentAt (stepN tr0 defaultConfig o0 (1 + 1)
          (StartupModel.init defaultConfig 1 o0)) 0).S = false
       ∧ (agentAt (stepN tr0 defaultConfig o0 (1 + 1)
          (StartupModel.init defaultConfig 1 o0)) 0).R = 0
       ∧ (agentAt (stepN tr0 defaultConfig o0 (1 + 1)
          (StartupModel.init defaultConfig 1 o0)) 0).K = 0) :=
  ⟨deadRunFact,
   c1_monotonic_death tr0 defaultConfig o0 1 1 1 0 (le_refl 1) (by decide) deadRunFact⟩

/-- Claim C10: dead entities are frame stable: the internal dynamics, PMF
and valuation, and policy stages are the identity on a dead entity, the
shock effect leaves a dead entity untouched, and along any run the PMF, V,
B and runway of an entity that is dead at month t keep their values (V in
particular stays frozen, not zeroed) at every month t + k. -/
theorem c10_dead_frame (tr : Transcend) (cfg : Config) (o : Oracle)
    (n t k i : ℕ) (hi : i < n)
    (hdead : (agentAt (stepN tr cfg o t (StartupModel.init cfg n o)) i).S = false) :
    (∀ a : StartupAgent, a.S = false → stage_internal_dynamics cfg a = a)
    ∧ (∀ (e : ℚ) (a : StartupAgent), a.S = false →
        stage_pmf_valuation_update tr cfg e a = a)
    ∧ (∀ (g : Globals) (a : StartupAgent), a.S = false → stage_policy cfg g a = a)
    ∧ (∀ (d : MonthDraws) (a : StartupAgent), a.S = false → shockF d a = a)
    ∧ ((agentAt (stepN tr cfg o (t + k) (StartupModel.init cfg n o)) i).S = false
       ∧ (agentAt (stepN tr cfg o (t + k) (StartupModel.init cfg n o)) i).PMF
           = (agentAt (stepN tr cfg o t (StartupModel.init cfg n o)) i).PMF
       ∧ (agentAt (stepN tr cfg o (t + k) (StartupModel.init cfg n o)) i).V
           = (agentAt (stepN tr cfg o t (StartupModel.init cfg n o)) i).V
       ∧ (agentAt (stepN tr cfg o (t + k) (StartupModel.init cfg n o)) i).B
           = (agentAt (stepN tr cfg o t (StartupModel.init cfg n o)) i).B
       ∧ (agentAt (stepN tr cfg o (t + k) (StartupModel.init cfg n o)) i).runway
           = (agentAt (stepN tr cfg o t (StartupModel.init cfg n o)) i).runway) := by
  refine ⟨fun a h => internal_dead cfg a h, fun e a h => pmf_update_dead tr cfg e a h,
    fun g a h => policy_dead cfg g a h, fun d a h => shockF_dead d a h, ?_⟩
  have hlen_t : i < (stepN tr cfg o t (StartupModel.init cfg n o)).agents.length := by
    rw [stepN_length, init_length]; exact hi
  rw [stepN_add]
  apply stepN_inv tr cfg o (fun x =>
    x.S = false
    ∧ x.PMF = (agentAt (stepN tr cfg o t (StartupModel.init cfg n o)) i).PMF
    ∧ x.V = (agentAt (stepN tr cfg o t (StartupModel.init cfg n o)) i).V
    ∧ x.B = (agentAt (stepN tr cfg o t (StartupModel.init cfg n o)) i).B
    ∧ x.runway = (agentAt (stepN tr cfg o t (StartupModel.init cfg n o)) i).runway)
  · intro d a hQ
    rw [shockF_dead d a hQ.1]
    exact hQ
  · intro g dr a hQ
    rw [agentMonth_dead tr cfg g dr a hQ.1]
    exact hQ
  · exact hlen_t
  · exact ⟨hdead, rfl, rfl, rfl, rfl⟩

theorem c10_witness :
    (agentAt (stepN tr0 defaultConfig o0 1
      (StartupModel.init defaultConfig 1 o0)) 0).S = false
    ∧ ((agentAt (stepN tr0 defaultConfig o0 (1 + 3)
          (StartupModel.init defaultConfig 1 o0)) 0).S = false
       ∧ (agentAt (stepN tr0 defaultConfig o0 (1 + 3)
          (StartupModel.init defaultConfig 1 o0)) 0).PMF
           = (agentAt (stepN tr0 defaultConfig o0 1
              (StartupModel.init defaultConfig 1 o0)) 0).PMF
       ∧ (agentAt (stepN tr0 defaultConfig o0 (1 + 3)
          (StartupModel.init defaultConfig 1 o0)) 0).V
           = (agentAt (stepN tr0 defaultConfig o0 1
              (StartupModel.init defaultConfig 1 o0)) 0).V
       ∧ (agentAt (stepN tr0 defaultConfig o0 (1 + 3)
          (StartupModel.init defaultConfig 1 o0)) 0).B
           = (agentAt (stepN tr0 defaultConfig o0 1
              (StartupModel.init defaultConfig 1 o0)) 0).B
       ∧ (agentAt (stepN tr0 defaultConfig o0 (1 + 3)
          (StartupModel.init defaultConfig 1 o0)) 0).runway
           = (agentAt (stepN tr0 defaultConfig o0 1
              (StartupModel.init defaultConfig 1 o0)) 0).runway) :=
  ⟨deadRunFact,
   (c10_dead_frame tr0 defaultConfig o0 1 1 3 0 (by decide) deadRunFact).2.2.2.2⟩

theorem model_vars_apply_shocks (cfg : Config) (d : MonthDraws) (st : ModelState) :
    (StartupModel.apply_shocks cfg d st).model_vars = st.model_vars := by
  unfold StartupModel.apply_shocks
  split <;> rfl

theorem agent_vars_apply_shocks (cfg : Config) (d : MonthDraws) (st : ModelState) :
    (StartupModel.apply_shocks cfg d st).agent_vars = st.agent_vars := by
  unfold StartupModel.apply_shocks
  split <;> rfl

theorem model_vars_sched_step (tr : Transcend) (cfg : Config) (d : MonthDraws)
    (st : ModelState) :
    (StagedActivation.step tr cfg d st).model_vars = st.model_vars := by
  show (StartupModel.update_market cfg (StartupModel.apply_shocks cfg d st)).model_vars
      = st.model_vars
  rw [show (StartupModel.update_market cfg (StartupModel.apply_shocks cfg d st)).model_vars
      = (StartupModel.apply_shocks cfg d st).model_vars from rfl]
  exact model_vars_apply_shocks cfg d st

theorem agent_vars_sched_step (tr : Transcend) (cfg : Config) (d : MonthDraws)
    (st : ModelState) :
    (StagedActivation.step tr cfg d st).agent_vars = st.agent_vars := by
  show (StartupModel.update_market cfg (StartupModel.apply_shocks cfg d st)).agent_vars
      = st.agent_vars
  rw [show (StartupModel.update_market cfg (StartupModel.apply_shocks cfg d st)).agent_vars
      = (StartupModel.apply_shocks cfg d st).agent_vars from rfl]
  exact agent_vars_apply_shocks cfg d st

theorem model_vars_collect_length (st : ModelState) :
    (StartupModel.collect st).model_vars.length = st.model_vars.length + 1 := by
  simp [StartupModel.collect]

theorem agent_vars_collect (st : ModelState) :
    (StartupModel.collect st).agent_vars
      = st.agent_vars ++ [st.agents.map agentRecord] := rfl

theorem model_vars_step_length (tr : Transcend) (cfg : Config) (o : Oracle)
    (st : ModelState) :
    (StartupModel.step tr cfg o st).model_vars.length
      = st.model_vars.length + 1 := by
  unfold StartupModel.step
  rw [model_vars_sched_step]
  exact model_vars_collect_length st

theorem model_vars_stepN_length (tr : Transcend) (cfg : Config) (o : Oracle)
    (k : ℕ) (st : ModelState) :
    (stepN tr cfg o k st).model_vars.length = st.model_vars.length + k := by
  induction k with
  | zero => rfl
  | succ k ih => rw [stepN, model_vars_step_length, ih]; omega

/-- The two sizes of the collected data of a finished run: the model level
table has one row per month plus the initial snapshot, and the final agent
level snapshot has one record per agent. -/
theorem run_model_table_sizes (tr : Transcend) (cfg : Config) (o : Oracle)
    (n h : ℕ) :
    (StartupModel.run_model tr cfg o n h).model_vars.length = h + 1
    ∧ ((StartupModel.run_model tr cfg o n h).agent_vars.getLastD []).length = n := by
  constructor
  · unfold StartupModel.run_model
    rw [model_vars_collect_length, model_vars_stepN_length]
    rw [show (StartupModel.init cfg n o).model_vars = [] from rfl]
    simp
  · unfold StartupModel.run_model
    rw [agent_vars_collect, List.getLastD_concat, List.length_map,
      stepN_length, init_length]

/-- Claim C3 counterexample: for horizon 1 and population 1 the model level
time series of the finished run has length 2, not 1 (the data collector
snapshots the state before each of the monthly steps and once more after
the run). -/
theorem c3_counterexample :
    ¬ ((StartupModel.run_model tr0 defaultConfig o0 1 1).model_vars.length = 1) := by
  have h := (run_model_table_sizes tr0 defaultConfig o0 1 1).1
  omega

/-- Claim C3 (amended): after run_model with population size N and horizon
H, the per month model time series has length H + 1 (one snapshot before
each of the H months plus the final snapshot) and the count of agent final
state records, the last collected agent level snapshot, equals N. -/
theorem c3_series_lengths (tr : Transcend) (cfg : Config) (o : Oracle)
    (n h : ℕ) :
    (StartupModel.run_model tr cfg o n h).model_vars.length = h + 1
    ∧ ((StartupModel.run_model tr cfg o n h).agent_vars.getLastD []).length = n :=
  run_model_table_sizes tr cfg o n h

theorem c3_witness :
    (StartupModel.run_model tr0 defaultConfig o0 2 3).model_vars.length = 3 + 1
    ∧ ((StartupModel.run_model tr0 defaultConfig o0 2 3).agent_vars.getLastD []).length = 2 :=
  c3_series_lengths tr0 defaultConfig o0 2 3

/-- k iterations of a linear congruential step, standing for the state
advance of the seeded numpy generator (the source seeds the generator once
from the run seed; the exact generator is irrelevant to determinism, only
that its stream is a function of the seed). -/
def lcgIter : ℕ → ℕ → ℕ
  | 0, x => x
  | k + 1, x => (1103515245 * lcgIter k x + 12345) % 4294967296

/-- The value in the unit interval drawn at position idx of the stream of
the generator seeded with seed. -/
def u01 (seed idx : ℕ) : ℚ := (lcgIter (idx + 1) seed : ℚ) / 4294967296

/-- The whole randomness of a run derived deterministically from the seed,
mirroring the distribution shapes of the source draws: uniform init capital
and burn, a unit interval PMF sample, the Bernoulli shock draw, uniform
shock magnitudes in their configured ranges, and per agent noises. -/
def seedOracle (cfg : Config) (seed : ℕ) : Oracle :=
  { init := fun i =>
      { k0 := cfg.K0_MIN + (cfg.K0_MAX - cfg.K0_MIN)
              * u01 seed (Nat.pair 0 (Nat.pair i 0))
        b0 := cfg.B0_MIN_FRAC
                * (cfg.K0_MIN + (cfg.K0_MAX - cfg.K0_MIN)
                   * u01 seed (Nat.pair 0 (Nat.pair i 0)))
              + (cfg.B0_MAX_FRAC - cfg.B0_MIN_FRAC)
                * (cfg.K0_MIN + (cfg.K0_MAX - cfg.K0_MIN)
                   * u01 seed (Nat.pair 0 (Nat.pair i 0)))
                * u01 seed (Nat.pair 0 (Nat.pair i 1))
        pmf0 := u01 seed (Nat.pair 0 (Nat.pair i 2)) }
    month := fun t =>
      { shock_u := u01 seed (Nat.pair 1 (Nat.pair t 0))
        delta_pmf := cfg.DELTA_PMF_SHOCK_MIN
          + (cfg.DELTA_PMF_SHOCK_MAX - cfg.DELTA_PMF_SHOCK_MIN)
            * u01 seed (Nat.pair 1 (Nat.pair t 1))
        delta_m := cfg.DELTA_M_SHOCK_MIN
          + (cfg.DELTA_M_SHOCK_MAX - cfg.DELTA_M_SHOCK_MIN)
            * u01 seed (Nat.pair 1 (Nat.pair t 2))
        agent := fun i =>
          { eps_r := u01 seed (Nat.pair 2 (Nat.pair t (Nat.pair i 0))) - 1/2
            eps_p := u01 seed (Nat.pair 2 (Nat.pair t (Nat.pair i 1))) - 1/2
            fund_u := u01 seed (Nat.pair 2 (Nat.pair t (Nat.pair i 2))) } } }

/-- One whole simulation as a function of the seed and the configuration:
construct the model with the seed derived randomness and run it to the
horizon with a final collect. -/
def run_sim (tr : Transcend) (cfg : Config) (seed : ℕ) (n h : ℕ) : ModelState :=
  StartupModel.run_model tr cfg (seedOracle cfg seed) n h

/-- Claim C4: two runs constructed with identical seed and configuration
(and the same transcendental primitives and sizing) produce identical whole
final states: the same per month collected series, the same collected agent
tables, and the same final state of every agent. -/
theorem c4_determinism (tr1 tr2 : Transcend) (cfg1 cfg2 : Config)
    (s1 s2 n1 n2 h1 h2 : ℕ) (htr : tr1 = tr2) (hcfg : cfg1 = cfg2)
    (hs : s1 = s2) (hn : n1 = n2) (hh : h1 = h2) :
    run_sim tr1 cfg1 s1 n1 h1 = run_sim tr2 cfg2 s2 n2 h2 := by
  subst htr hcfg hs hn hh
  rfl

theorem c4_witness :
    run_sim tr0 defaultConfig 42 2 3 = run_sim tr0 defaultConfig 42 2 3 :=
  c4_determinism tr0 tr0 defaultConfig defaultConfig 42 42 2 2 3 3
    rfl rfl rfl rfl rfl
